import Mathlib

/-!
Verification of the fraud-detection scoring core.

This file is a shallow embedding, in Lean 4, of the numeric core of the
fraud-detection repository: the `FraudDetector` class (customer/terminal
statistics aggregation, feature extraction, z-score normalization, the
rule-based classifier, the confusion-matrix metrics, and the trained-state
guard of `predict`) together with `DataAnalyzer.analyzeCustomerStats`.

Modelling conventions:
* JavaScript numbers are modelled as exact rationals (`ℚ`) wherever the
  source only adds, multiplies, divides and compares, and as reals (`ℝ`)
  where the source calls `Math.sqrt`, `Math.sin`, `Math.cos`.
* A JavaScript division `a / b` whose denominator can only vanish when the
  numerator also vanishes (every division site in `calculateMetrics` has
  numerator ≤ denominator) produces `NaN` exactly when `b = 0`; it is
  modelled as `Option ℚ` with `none` standing for `NaN`.  The JS idiom
  `x || 0` (which maps both `NaN` and `0` to `0`) becomes `Option.getD _ 0`.
* The optional ground-truth label `TX_FRAUD` is modelled as `Option ℤ`
  (`none` = field absent on a prediction-only record); the source's
  `t.TX_FRAUD === 1` becomes `t.TX_FRAUD = some 1`.
* JavaScript `Map`s keyed by id strings are modelled extensionally as
  functions `String → Option _`; the group stored under a key is the
  in-order sublist of the batch with that key, i.e. a `List.filter`.
* `Math.sqrt` of a rational is irrational in general, so the statistics
  records store the (rational) population variance and expose the source's
  standard-deviation field as the real `Real.sqrt` of it.
* The trainable TensorFlow model is out of scope (an external collaborator
  per the design); `predict` is embedded parametrically in an opaque
  probability function held in the detector state, which is all its
  trained-state guard behaviour depends on.
-/

namespace FraudDetection

/-- A parsed transaction record (`Transaction` interface).  `TX_FRAUD` is
optional on prediction-only inputs, hence `Option ℤ`; the three
`predicted_*` fields are appended by the scoring stages. -/
structure Transaction where
  TRANSACTION_ID : String
  TX_DATETIME : String
  CUSTOMER_ID : String
  TERMINAL_ID : String
  TX_AMOUNT : ℚ
  TX_TIME_SECONDS : ℤ
  TX_TIME_DAYS : ℤ
  TX_FRAUD : Option ℤ := none
  TX_FRAUD_SCENARIO : Option ℤ := none
  predicted_fraud : Option ℕ := none
  predicted_scenario : Option ℕ := none
  predicted_probability : Option ℚ := none
  deriving DecidableEq

/-- Per-customer statistics entry produced by
`FraudDetector.calculateCustomerStats`.  The source stores
`amountVariation = Math.sqrt(variance)`; we store the rational variance and
expose the standard deviation as `CustomerStat.amountVariation` below. -/
structure CustomerStat where
  avgAmount : ℚ
  transactionCount : ℕ
  amountVariationSq : ℚ
  deriving DecidableEq

/-- The source's `amountVariation` field: the population standard deviation
of the customer's amounts. -/
noncomputable def CustomerStat.amountVariation (s : CustomerStat) : ℝ :=
  Real.sqrt (s.amountVariationSq : ℝ)

/-- Per-terminal statistics entry produced by
`FraudDetector.calculateTerminalStats`. -/
structure TerminalStat where
  avgAmount : ℚ
  transactionCount : ℕ
  fraudRate : ℚ
  deriving DecidableEq

/-- The in-order sublist of a batch belonging to one customer id (the group
built by the `reduce` in `calculateCustomerStats`). -/
def customerGroup (transactions : List Transaction) (cid : String) : List Transaction :=
  transactions.filter (fun t => t.CUSTOMER_ID == cid)

/-- The in-order sublist of a batch belonging to one terminal id (the group
built by the `reduce` in `calculateTerminalStats`). -/
def terminalGroup (transactions : List Transaction) (tid : String) : List Transaction :=
  transactions.filter (fun t => t.TERMINAL_ID == tid)

/-- `FraudDetector.calculateCustomerStats`, viewed extensionally: the stats
map sends a customer id present in the batch to the mean, count and
population variance of that customer's amounts, and an absent id to
`none`. -/
def calculateCustomerStats (transactions : List Transaction) (cid : String) :
    Option CustomerStat :=
  let group := customerGroup transactions cid
  if group.isEmpty then none
  else
    let amounts := group.map (fun t => t.TX_AMOUNT)
    let avgAmount := amounts.sum / (amounts.length : ℚ)
    some
      { avgAmount := avgAmount
        transactionCount := group.length
        amountVariationSq :=
          (amounts.map (fun a => (a - avgAmount) ^ 2)).sum / (amounts.length : ℚ) }

/-- `FraudDetector.calculateTerminalStats`, viewed extensionally.  The fraud
rate divides the number of rows whose label field equals `1` by the group
size; rows with an absent label count as non-fraud. -/
def calculateTerminalStats (transactions : List Transaction) (tid : String) :
    Option TerminalStat :=
  let group := terminalGroup transactions tid
  if group.isEmpty then none
  else
    let amounts := group.map (fun t => t.TX_AMOUNT)
    some
      { avgAmount := amounts.sum / (amounts.length : ℚ)
        transactionCount := group.length
        fraudRate := ((group.countP (fun t => t.TX_FRAUD == some 1)) : ℚ) / (group.length : ℚ) }

/-- The per-transaction body of `detectFraudRuleBased`'s `map`: the ordered
rule cascade (amount > 220, then terminal fraud rate > 0.5, then amount >
3 × customer mean), closing over the two stats maps. -/
def ruleApply (customerStats : String → Option CustomerStat)
    (terminalStats : String → Option TerminalStat) (t : Transaction) : Transaction :=
  let verdict : ℕ × ℕ :=
    if 220 < t.TX_AMOUNT then (1, 1)
    else if (match terminalStats t.TERMINAL_ID with
             | some s => decide ((1 : ℚ) / 2 < s.fraudRate)
             | none => false) then (1, 2)
    else if (match customerStats t.CUSTOMER_ID with
             | some s => decide (s.avgAmount * 3 < t.TX_AMOUNT)
             | none => false) then (1, 3)
    else (0, 0)
  { t with
    predicted_fraud := some verdict.1
    predicted_scenario := some verdict.2
    predicted_probability := some (verdict.1 : ℚ) }

/-- `FraudDetector.detectFraudRuleBased`: recompute both stats maps from the
batch, then apply the rule cascade to every transaction. -/
def detectFraudRuleBased (transactions : List Transaction) : List Transaction :=
  transactions.map
    (ruleApply (calculateCustomerStats transactions) (calculateTerminalStats transactions))

/-- The row predicate of `calculateMetrics`' true-positive branch
(`actualLabel === 1 && predictedLabel === 1`), on an (actual, predicted)
row pair; `predictedLabel` is `predicted[i].predicted_fraud || 0`. -/
def isTP (p : Transaction × Transaction) : Bool :=
  p.1.TX_FRAUD == some 1 && p.2.predicted_fraud.getD 0 == 1

/-- False-positive branch predicate (`actualLabel === 0 && predictedLabel === 1`). -/
def isFP (p : Transaction × Transaction) : Bool :=
  p.1.TX_FRAUD == some 0 && p.2.predicted_fraud.getD 0 == 1

/-- True-negative branch predicate (`actualLabel === 0 && predictedLabel === 0`). -/
def isTN (p : Transaction × Transaction) : Bool :=
  p.1.TX_FRAUD == some 0 && p.2.predicted_fraud.getD 0 == 0

/-- False-negative branch predicate (`actualLabel === 1 && predictedLabel === 0`). -/
def isFN (p : Transaction × Transaction) : Bool :=
  p.1.TX_FRAUD == some 1 && p.2.predicted_fraud.getD 0 == 0

/-- The `tp` counter of `calculateMetrics`' loop over `i < actual.length`
(the loop body's four branches are mutually exclusive, so each counter is a
`countP` over the paired rows). -/
def truePos (actual predicted : List Transaction) : ℕ :=
  (actual.zip predicted).countP isTP

/-- The `fp` counter of `calculateMetrics`. -/
def falsePos (actual predicted : List Transaction) : ℕ :=
  (actual.zip predicted).countP isFP

/-- The `tn` counter of `calculateMetrics`. -/
def trueNeg (actual predicted : List Transaction) : ℕ :=
  (actual.zip predicted).countP isTN

/-- The `fn` counter of `calculateMetrics`. -/
def falseNeg (actual predicted : List Transaction) : ℕ :=
  (actual.zip predicted).countP isFN

/-- JavaScript division at the call sites of `calculateMetrics`: every ratio
there has numerator ≤ denominator, so a zero denominator forces a zero
numerator and the result is `NaN` (modelled `none`); otherwise the exact
quotient. -/
def jsDiv (a b : ℚ) : Option ℚ :=
  if b = 0 then none else some (a / b)

/-- The `ModelMetrics` record.  `accuracy` is computed without the source's
`|| 0` guard, so it can be `NaN` (`none`); the other three metrics are
guarded and always rational. -/
structure ModelMetrics where
  accuracy : Option ℚ
  precision : ℚ
  «recall» : ℚ
  f1Score : ℚ
  confusion_matrix : List (List ℕ)
  deriving DecidableEq

/-- `FraudDetector.calculateMetrics`: confusion counts, then
`accuracy = (tp+tn)/(tp+fp+tn+fn)` (unguarded), and
`precision`, `recall`, `f1Score` each followed by `|| 0`. -/
def calculateMetrics (actual predicted : List Transaction) : ModelMetrics :=
  let tp := truePos actual predicted
  let fp := falsePos actual predicted
  let tn := trueNeg actual predicted
  let fname := falseNeg actual predicted
  let precision := (jsDiv (tp : ℚ) ((tp : ℚ) + (fp : ℚ))).getD 0
  let recallV := (jsDiv (tp : ℚ) ((tp : ℚ) + (fname : ℚ))).getD 0
  { accuracy := jsDiv ((tp : ℚ) + (tn : ℚ)) ((tp : ℚ) + (fp : ℚ) + (tn : ℚ) + (fname : ℚ))
    precision := precision
    «recall» := recallV
    f1Score := (jsDiv (2 * (precision * recallV)) (precision + recallV)).getD 0
    confusion_matrix := [[tn, fp], [fname, tp]] }

/-- Helper to build a concrete input record. -/
def txMk (id cid tid : String) (amt : ℚ) (fraud : Option ℤ) : Transaction :=
  { TRANSACTION_ID := id, TX_DATETIME := "2024-01-01", CUSTOMER_ID := cid,
    TERMINAL_ID := tid, TX_AMOUNT := amt, TX_TIME_SECONDS := 0, TX_TIME_DAYS := 0,
    TX_FRAUD := fraud }

/-- Helper to build a concrete scored record with a predicted label. -/
def txPred (id : String) (pf : ℕ) : Transaction :=
  { txMk id "c0" "T0" 0 none with predicted_fraud := some pf }

/-- A concrete transaction whose ground-truth label field is absent. -/
def txUnlabeled : Transaction := txMk "t1" "c1" "T1" 10 none

/-- The same transaction with an explicit non-fraud label. -/
def txLabeledZero : Transaction := txMk "t1" "c1" "T1" 10 (some 0)

/-- Ground-truth batch of the spec's §8 metrics example: labels [1,0,1,0]. -/
def gtBatch : List Transaction :=
  [txMk "g1" "c0" "T0" 10 (some 1), txMk "g2" "c0" "T0" 10 (some 0),
    txMk "g3" "c0" "T0" 10 (some 1), txMk "g4" "c0" "T0" 10 (some 0)]

/-- Predicted batch of the spec's §8 metrics example: predictions [1,0,0,0]. -/
def predBatch : List Transaction :=
  [txPred "g1" 1, txPred "g2" 0, txPred "g3" 0, txPred "g4" 0]

/-- Arithmetic mean of a list of amounts (spec-side formulation, §4.1). -/
def specMean (l : List ℚ) : ℚ := l.sum / (l.length : ℚ)

/-- Population variance: squared deviations from the mean divided by the
count, not count − 1 (spec-side formulation, §4.1). -/
def specPopVariance (l : List ℚ) : ℚ :=
  (l.map (fun x => (x - specMean l) ^ 2)).sum / (l.length : ℚ)

/-- Population standard deviation (spec-side formulation, §4.1). -/
noncomputable def specPopStd (l : List ℚ) : ℝ :=
  Real.sqrt ((specPopVariance l : ℚ) : ℝ)

/-- The `CustomerStats` record returned by `DataAnalyzer.analyzeCustomerStats`
(as for `CustomerStat`, the variance is stored and the source's
square-root field is the projection below). -/
structure DACustomerStats where
  customerId : String
  totalTransactions : ℕ
  fraudTransactions : ℕ
  fraudRate : ℚ
  averageAmount : ℚ
  amountVariationSq : ℚ
  deriving DecidableEq

/-- The source's `amountVariation` field of `DataAnalyzer`'s customer stats. -/
noncomputable def DACustomerStats.amountVariation (s : DACustomerStats) : ℝ :=
  Real.sqrt ((s.amountVariationSq : ℚ) : ℝ)

/-- The source's `spendingPatternAnomaly` flag:
`amountVariation > averageAmount * 2`. -/
def DACustomerStats.spendingPatternAnomaly (s : DACustomerStats) : Prop :=
  ((s.averageAmount * 2 : ℚ) : ℝ) < s.amountVariation

/-- The per-customer entry built inside `analyzeCustomerStats`' `map`. -/
def analyzeCustomerEntry (transactions : List Transaction) (cid : String) : DACustomerStats :=
  let group := customerGroup transactions cid
  let amounts := group.map (fun t => t.TX_AMOUNT)
  let averageAmount := amounts.sum / (amounts.length : ℚ)
  { customerId := cid
    totalTransactions := group.length
    fraudTransactions := group.countP (fun t => t.TX_FRAUD == some 1)
    fraudRate := ((group.countP (fun t => t.TX_FRAUD == some 1)) : ℚ) / ((group.length : ℕ) : ℚ)
    averageAmount := averageAmount
    amountVariationSq := (amounts.map (fun a => (a - averageAmount) ^ 2)).sum / (amounts.length : ℚ) }

/-- `DataAnalyzer.analyzeCustomerStats`: one entry per distinct customer id
of the batch (object-key iteration), then a stable sort descending by
fraud rate (the JS comparator `(a, b) ↦ b.fraudRate − a.fraudRate`). -/
def analyzeCustomerStats (transactions : List Transaction) : List DACustomerStats :=
  (((transactions.map (fun t => t.CUSTOMER_ID)).dedup).map
      (analyzeCustomerEntry transactions)).mergeSort
    (fun a b => decide (b.fraudRate ≤ a.fraudRate))

/-- The per-transaction feature vector of `extractFeatures` (14 fixed
positions; an absent stats entry contributes the `|| 0` defaults). -/
noncomputable def extractFeatureVector (customerStat : Option CustomerStat)
    (terminalStat : Option TerminalStat) (t : Transaction) : List ℝ :=
  let csAvg : ℚ := match customerStat with | some s => s.avgAmount | none => 0
  [((t.TX_AMOUNT : ℚ) : ℝ),
    ((t.TX_TIME_SECONDS : ℤ) : ℝ),
    ((t.TX_TIME_DAYS : ℤ) : ℝ),
    ((csAvg : ℚ) : ℝ),
    (((match customerStat with | some s => (s.transactionCount : ℚ) | none => 0) : ℚ) : ℝ),
    (match customerStat with | some s => s.amountVariation | none => (0 : ℝ)),
    (((match terminalStat with | some s => s.avgAmount | none => 0) : ℚ) : ℝ),
    (((match terminalStat with | some s => (s.transactionCount : ℚ) | none => 0) : ℚ) : ℝ),
    (((match terminalStat with | some s => s.fraudRate | none => 0) : ℚ) : ℝ),
    |((t.TX_AMOUNT : ℚ) : ℝ) - ((csAvg : ℚ) : ℝ)|,
    Real.sin (2 * Real.pi * ((Int.tmod t.TX_TIME_SECONDS 86400 : ℤ) : ℝ) / 86400),
    Real.cos (2 * Real.pi * ((Int.tmod t.TX_TIME_SECONDS 86400 : ℤ) : ℝ) / 86400),
    Real.sin (2 * Real.pi * ((Int.tmod t.TX_TIME_DAYS 7 : ℤ) : ℝ) / 7),
    Real.cos (2 * Real.pi * ((Int.tmod t.TX_TIME_DAYS 7 : ℤ) : ℝ) / 7)]

/-- `FraudDetector.extractFeatures`: recompute both stats maps from the
batch itself, then map every transaction to its feature vector. -/
noncomputable def extractFeatures (transactions : List Transaction) : List (List ℝ) :=
  transactions.map (fun t =>
    extractFeatureVector (calculateCustomerStats transactions t.CUSTOMER_ID)
      (calculateTerminalStats transactions t.TERMINAL_ID) t)

/-- A concrete unlabeled probe transaction with amount 50. -/
def txAnomalyProbe : Transaction := txMk "p1" "cX" "TX" 50 none

/-- Column `i` of a feature matrix, read the way the source reads `row[i]`
(rectangular input is assumed wherever a claim needs the reading to be
total, matching §7's InputShapeError precondition). -/
def jsCol (m : List (List ℝ)) (i : ℕ) : List ℝ :=
  m.map (fun row => row.getD i 0)

/-- `means[i]` of `normalizeFeatures`: the column sum over the row count. -/
noncomputable def colMean (m : List (List ℝ)) (i : ℕ) : ℝ :=
  (jsCol m i).sum / (m.length : ℝ)

/-- The per-column variance of `normalizeFeatures`: mean squared deviation
from `means[i]`, divided by the row count. -/
noncomputable def colVariance (m : List (List ℝ)) (i : ℕ) : ℝ :=
  ((jsCol m i).map (fun v => (v - colMean m i) ^ 2)).sum / (m.length : ℝ)

/-- `stds[i] = Math.sqrt(variance) || 1`: the square root of the variance,
with the falsy value 0 replaced by 1. -/
noncomputable def colStd (m : List (List ℝ)) (i : ℕ) : ℝ :=
  if Real.sqrt (colVariance m i) = 0 then 1 else Real.sqrt (colVariance m i)

/-- The fitted scaler: parallel per-column mean and standard-deviation
sequences. -/
structure Scaler where
  mean : List ℝ
  std : List ℝ

/-- The `this.scaler = { mean: means, std: stds }` assignment of
`normalizeFeatures`: one entry per column of the first row. -/
noncomputable def fitScaler (m : List (List ℝ)) : Scaler :=
  { mean := (List.range (m.headD []).length).map (colMean m)
    std := (List.range (m.headD []).length).map (colStd m) }

/-- The shared transform body of `normalizeFeatures` and
`applyNormalization`: `(value - mean[i]) / std[i]` entrywise. -/
noncomputable def scalerTransform (sc : Scaler) (m : List (List ℝ)) : List (List ℝ) :=
  m.map (fun row => row.mapIdx (fun i v => (v - sc.mean.getD i 0) / sc.std.getD i 1))

/-- `FraudDetector.normalizeFeatures`: an empty matrix is returned as-is
without touching the stored scaler; otherwise the scaler is fit and the
matrix transformed with it. -/
noncomputable def normalizeFeatures (prev : Option Scaler) (m : List (List ℝ)) :
    Option Scaler × List (List ℝ) :=
  if m.isEmpty then (prev, m)
  else (some (fitScaler m), scalerTransform (fitScaler m) m)

/-- `FraudDetector.applyNormalization`: with no stored scaler
(`if (!this.scaler) return features`) the features are returned raw;
otherwise the stored scaler's transform is applied. -/
noncomputable def applyNormalization (scaler : Option Scaler) (m : List (List ℝ)) :
    List (List ℝ) :=
  match scaler with
  | none => m
  | some sc => scalerTransform sc m

/-- Spec-side population variance of a real column (§4.3). -/
noncomputable def popVarR (l : List ℝ) : ℝ :=
  (l.map (fun v => (v - l.sum / (l.length : ℝ)) ^ 2)).sum / (l.length : ℝ)

/-- Rectangularity of a feature matrix: every row has the width of the
first row (§7 InputShapeError precondition). -/
def Rect (m : List (List ℝ)) : Prop :=
  ∀ row ∈ m, row.length = (m.headD []).length

/-- The mutable state of the `FraudDetector` class that `predict` consults:
the nullable trained model (the external classifier collaborator, opaque
here, modelled by its probability output per normalized-feature row; the
float probabilities are modelled as rationals so they fit the transaction
record) and the nullable fitted scaler. -/
structure DetectorState where
  model : Option (List (List ℝ) → List ℚ)
  scaler : Option Scaler

/-- `FraudDetector.predict`: throws `'Model not trained yet'` unless both
the model and the scaler are present; otherwise extracts features, applies
the stored scaler, asks the model for probabilities, and appends
`predicted_fraud = probability > 0.5 ? 1 : 0` and `predicted_probability`
to each transaction. -/
noncomputable def predict (st : DetectorState) (transactions : List Transaction) :
    Except String (List Transaction) :=
  match st.model, st.scaler with
  | some mdl, some sc =>
    let features := extractFeatures transactions
    let normalizedFeatures := applyNormalization (some sc) features
    let probabilities := mdl normalizedFeatures
    Except.ok (transactions.mapIdx (fun i t =>
      { t with
        predicted_fraud := some (if 1 / 2 < probabilities.getD i 0 then 1 else 0)
        predicted_probability := some (probabilities.getD i 0) }))
  | _, _ => Except.error "Model not trained yet"

end FraudDetection

namespace FraudDetection

/-! ## Theorems -/

/-- C1: `detectFraudRuleBased` evaluates, for every transaction of the
batch, an ordered first-match-wins cascade: scenario 1 exactly when
amount > 220; scenario 2 exactly when that fails and the terminal's stats
entry exists with fraud rate > 1/2; scenario 3 exactly when both fail and
the customer's stats entry exists with amount > 3 × its mean; scenario 0
(no scenario) otherwise.  The fraud label is 1 exactly on scenarios 1–3 and
the probability proxy always equals the predicted label. -/
theorem rule_cascade_first_match_wins (cs : String → Option CustomerStat)
    (ts : String → Option TerminalStat) (t : Transaction)
    (transactions : List Transaction) :
    detectFraudRuleBased transactions =
      transactions.map
        (ruleApply (calculateCustomerStats transactions) (calculateTerminalStats transactions)) ∧
    ((ruleApply cs ts t).predicted_scenario = some 1 ↔ 220 < t.TX_AMOUNT) ∧
    ((ruleApply cs ts t).predicted_scenario = some 2 ↔
      ¬ 220 < t.TX_AMOUNT ∧
        ∃ s, ts t.TERMINAL_ID = some s ∧ (1 : ℚ) / 2 < s.fraudRate) ∧
    ((ruleApply cs ts t).predicted_scenario = some 3 ↔
      ¬ 220 < t.TX_AMOUNT ∧
        (∀ s, ts t.TERMINAL_ID = some s → ¬ (1 : ℚ) / 2 < s.fraudRate) ∧
        ∃ s, cs t.CUSTOMER_ID = some s ∧ s.avgAmount * 3 < t.TX_AMOUNT) ∧
    ((ruleApply cs ts t).predicted_scenario = some 0 ↔
      ¬ 220 < t.TX_AMOUNT ∧
        (∀ s, ts t.TERMINAL_ID = some s → ¬ (1 : ℚ) / 2 < s.fraudRate) ∧
        (∀ s, cs t.CUSTOMER_ID = some s → ¬ s.avgAmount * 3 < t.TX_AMOUNT)) ∧
    ((ruleApply cs ts t).predicted_fraud = some 0 ↔
      (ruleApply cs ts t).predicted_scenario = some 0) ∧
    ((ruleApply cs ts t).predicted_fraud = some 1 ↔
      ((ruleApply cs ts t).predicted_scenario = some 1 ∨
        (ruleApply cs ts t).predicted_scenario = some 2 ∨
        (ruleApply cs ts t).predicted_scenario = some 3)) ∧
    (ruleApply cs ts t).predicted_probability =
      some ((((ruleApply cs ts t).predicted_fraud).getD 0 : ℕ) : ℚ) := by
  refine ⟨rfl, ?_⟩
  simp only [ruleApply]
  by_cases h1 : 220 < t.TX_AMOUNT
  · simp [h1]
  · cases hts : ts t.TERMINAL_ID with
    | some s =>
      by_cases h2 : (2 : ℚ)⁻¹ < s.fraudRate
      · simp [h1, hts, h2]
      · have h2' := not_lt.mp h2
        cases hcs : cs t.CUSTOMER_ID with
        | some c =>
          by_cases h3 : c.avgAmount * 3 < t.TX_AMOUNT
          · simp [h1, hts, h2, h2', hcs, h3]
          · have h3' := not_lt.mp h3
            simp [h1, hts, h2, h2', hcs, h3, h3']
        | none => simp [h1, hts, h2, h2', hcs]
    | none =>
      cases hcs : cs t.CUSTOMER_ID with
      | some c =>
        by_cases h3 : c.avgAmount * 3 < t.TX_AMOUNT
        · simp [h1, hts, hcs, h3]
        · have h3' := not_lt.mp h3
          simp [h1, hts, hcs, h3, h3']
      | none => simp [h1, hts, hcs]

/-- C3 counterexample: a batch whose only transaction at terminal "T1"
lacks the ground-truth label yields the plain fraud rate 0, and the
resulting stats entry is identical to the one obtained when the same
transaction carries an explicit non-fraud label — the absent-label case is
coerced to 0, not kept as a distinct "unknown" state. -/
theorem unlabeled_terminal_rate_is_plain_zero :
    calculateTerminalStats [txUnlabeled] "T1" =
      some { avgAmount := 10, transactionCount := 1, fraudRate := 0 } ∧
    calculateTerminalStats [txUnlabeled] "T1" =
      calculateTerminalStats [txLabeledZero] "T1" := by
  constructor <;>
    norm_num [calculateTerminalStats, terminalGroup, txUnlabeled, txLabeledZero, txMk]

/-- C3 amended: when no transaction of a terminal carries the label value 1
(in particular when every one of its transactions lacks the label field),
`calculateTerminalStats` reports a fraud rate equal to the ordinary
rational 0 — there is no separate "unknown" representation. -/
theorem unlabeled_terminal_rate_coerced_to_zero (transactions : List Transaction)
    (tid : String)
    (h : ∀ t ∈ transactions, t.TERMINAL_ID = tid → t.TX_FRAUD ≠ some 1) :
    ∀ s, calculateTerminalStats transactions tid = some s → s.fraudRate = 0 := by
  intro s hs
  simp only [calculateTerminalStats, terminalGroup] at hs
  split at hs
  · exact absurd hs (by simp)
  · have hcount :
        (transactions.filter (fun t => t.TERMINAL_ID == tid)).countP
          (fun t => t.TX_FRAUD == some 1) = 0 := by
      refine List.countP_eq_zero.mpr ?_
      intro t ht
      have hmem := List.mem_filter.mp ht
      have htid : t.TERMINAL_ID = tid := by
        have := hmem.2
        simpa using this
      have := h t hmem.1 htid
      simpa using this
    have : s = { avgAmount := _, transactionCount := _, fraudRate := _ } :=
      (Option.some.injEq _ _).mp hs.symm
    rw [← Option.some.injEq] at hs
    cases hs
    simp [hcount]

end FraudDetection

namespace FraudDetection

/-- C3 witness: the amended statement applied to the concrete one-element
unlabeled batch: its terminal stats entry carries the plain fraud rate 0. -/
theorem unlabeled_terminal_rate_coerced_to_zero_witness :
    ((calculateTerminalStats [txUnlabeled] "T1").map TerminalStat.fraudRate).getD 1 = 0 := by
  have hs : calculateTerminalStats [txUnlabeled] "T1" =
      some { avgAmount := 10, transactionCount := 1, fraudRate := 0 } := by
    norm_num [calculateTerminalStats, terminalGroup, txUnlabeled, txMk]
  have h := unlabeled_terminal_rate_coerced_to_zero [txUnlabeled] "T1" (by decide) _ hs
  rw [hs]
  exact h

/-- C2 counterexample: on the empty batch the confusion matrix is all-zero
and precision, recall and F1 are 0, but `accuracy` is `0/0 = NaN`
(modelled `none`), not 0: the division-by-zero-yields-0 policy does not
cover accuracy. -/
theorem empty_batch_accuracy_is_nan :
    (calculateMetrics [] []).accuracy = none ∧
    (calculateMetrics [] []).confusion_matrix = [[0, 0], [0, 0]] ∧
    (calculateMetrics [] []).precision = 0 ∧
    (calculateMetrics [] []).«recall» = 0 ∧
    (calculateMetrics [] []).f1Score = 0 := by
  refine ⟨?_, ?_, ?_, ?_, ?_⟩ <;>
    simp [calculateMetrics, truePos, falsePos, trueNeg, falseNeg, jsDiv]

/-- C2 amended: each of precision, recall and F1 yields 0 whenever its
denominator is 0 (the source guards them with `|| 0`), but accuracy is
unguarded: a zero total count — in particular the empty batch — makes it
`NaN` (`none`), while the confusion matrix and the other three metrics are
all zero. -/
theorem metrics_zero_denominator_policy (actual predicted : List Transaction) :
    (truePos actual predicted + falsePos actual predicted = 0 →
      (calculateMetrics actual predicted).precision = 0) ∧
    (truePos actual predicted + falseNeg actual predicted = 0 →
      (calculateMetrics actual predicted).«recall» = 0) ∧
    ((calculateMetrics actual predicted).precision +
        (calculateMetrics actual predicted).«recall» = 0 →
      (calculateMetrics actual predicted).f1Score = 0) ∧
    (truePos actual predicted + falsePos actual predicted + trueNeg actual predicted +
        falseNeg actual predicted = 0 →
      (calculateMetrics actual predicted).accuracy = none) ∧
    (actual = [] →
      (calculateMetrics actual predicted).confusion_matrix = [[0, 0], [0, 0]] ∧
      (calculateMetrics actual predicted).precision = 0 ∧
      (calculateMetrics actual predicted).«recall» = 0 ∧
      (calculateMetrics actual predicted).f1Score = 0 ∧
      (calculateMetrics actual predicted).accuracy = none) := by
  refine ⟨?_, ?_, ?_, ?_, ?_⟩
  · intro h
    have hq : (truePos actual predicted : ℚ) + (falsePos actual predicted : ℚ) = 0 := by
      exact_mod_cast congrArg (fun n : ℕ => (n : ℚ)) h
    simp [calculateMetrics, jsDiv, hq]
  · intro h
    have hq : (truePos actual predicted : ℚ) + (falseNeg actual predicted : ℚ) = 0 := by
      exact_mod_cast congrArg (fun n : ℕ => (n : ℚ)) h
    simp [calculateMetrics, jsDiv, hq]
  · intro h
    simp only [calculateMetrics, jsDiv] at h ⊢
    rw [if_pos h]
    rfl
  · intro h
    have hq : (truePos actual predicted : ℚ) + (falsePos actual predicted : ℚ) +
        (trueNeg actual predicted : ℚ) + (falseNeg actual predicted : ℚ) = 0 := by
      exact_mod_cast congrArg (fun n : ℕ => (n : ℚ)) h
    simp [calculateMetrics, jsDiv, hq]
  · intro h
    subst h
    refine ⟨?_, ?_, ?_, ?_, ?_⟩ <;>
      simp [calculateMetrics, truePos, falsePos, trueNeg, falseNeg, jsDiv]

/-- C2 witness: the zero-denominator policy applied at the empty batch. -/
theorem metrics_zero_denominator_policy_witness :
    (calculateMetrics [] []).precision = 0 ∧ (calculateMetrics [] []).accuracy = none :=
  ⟨(metrics_zero_denominator_policy [] []).1 (by decide),
    (metrics_zero_denominator_policy [] []).2.2.2.1 (by decide)⟩

/-- Each paired row with binary actual and predicted labels satisfies
exactly one of the four confusion branches, so the four counts partition
the rows. -/
theorem countP_confusion_partition (l : List (Transaction × Transaction))
    (h : ∀ p ∈ l, (p.1.TX_FRAUD = some 0 ∨ p.1.TX_FRAUD = some 1) ∧
        (p.2.predicted_fraud.getD 0 = 0 ∨ p.2.predicted_fraud.getD 0 = 1)) :
    l.countP isTN + l.countP isFP + l.countP isFN + l.countP isTP = l.length := by
  induction l with
  | nil => simp
  | cons a l ih =>
    have ha := h a (List.mem_cons_self a l)
    have hl : ∀ p ∈ l, (p.1.TX_FRAUD = some 0 ∨ p.1.TX_FRAUD = some 1) ∧
        (p.2.predicted_fraud.getD 0 = 0 ∨ p.2.predicted_fraud.getD 0 = 1) :=
      fun p hp => h p (List.mem_cons_of_mem a hp)
    have hsum := ih hl
    simp only [List.countP_cons, List.length_cons]
    rcases ha with ⟨h1 | h1, h2 | h2⟩ <;>
      simp [isTN, isFP, isFN, isTP, h1, h2] <;> omega

/-- C9: for equal-length batches with binary ground-truth and predicted
labels, the four confusion counts (natural numbers, hence non-negative)
sum exactly to the number of evaluated rows, and they are exactly the
entries of the returned confusion matrix. -/
theorem confusion_counts_sum_to_rows (actual predicted : List Transaction)
    (hlen : actual.length = predicted.length)
    (hact : ∀ t ∈ actual, t.TX_FRAUD = some 0 ∨ t.TX_FRAUD = some 1)
    (hpred : ∀ t ∈ predicted, t.predicted_fraud.getD 0 = 0 ∨ t.predicted_fraud.getD 0 = 1) :
    trueNeg actual predicted + falsePos actual predicted + falseNeg actual predicted +
        truePos actual predicted = actual.length ∧
    (calculateMetrics actual predicted).confusion_matrix =
      [[trueNeg actual predicted, falsePos actual predicted],
        [falseNeg actual predicted, truePos actual predicted]] := by
  constructor
  · have hz : ∀ p ∈ actual.zip predicted,
        (p.1.TX_FRAUD = some 0 ∨ p.1.TX_FRAUD = some 1) ∧
        (p.2.predicted_fraud.getD 0 = 0 ∨ p.2.predicted_fraud.getD 0 = 1) := by
      rintro ⟨x, y⟩ hp
      have hmem := List.of_mem_zip hp
      exact ⟨hact _ hmem.1, hpred _ hmem.2⟩
    have hpart := countP_confusion_partition _ hz
    simpa [trueNeg, falsePos, falseNeg, truePos, List.length_zip, hlen, Nat.min_self]
      using hpart
  · rfl

/-- C9 witness: the spec's §8 example — ground truth [1,0,1,0] against
predictions [1,0,0,0] gives counts tn=2, fp=0, fn=1, tp=1 summing to 4. -/
theorem confusion_counts_sum_to_rows_witness :
    trueNeg gtBatch predBatch + falsePos gtBatch predBatch + falseNeg gtBatch predBatch +
        truePos gtBatch predBatch = gtBatch.length ∧
    (calculateMetrics gtBatch predBatch).confusion_matrix = [[2, 0], [1, 1]] := by
  have h := confusion_counts_sum_to_rows gtBatch predBatch (by decide) (by decide) (by decide)
  exact ⟨h.1, by decide⟩

end FraudDetection

namespace FraudDetection

/-- A nonempty customer group makes `calculateCustomerStats` return the
population statistics of the group's amounts. -/
theorem calculateCustomerStats_eq_some (transactions : List Transaction) (cid : String)
    (h : customerGroup transactions cid ≠ []) :
    calculateCustomerStats transactions cid =
      some { avgAmount := specMean ((customerGroup transactions cid).map (fun t => t.TX_AMOUNT)),
             transactionCount := (customerGroup transactions cid).length,
             amountVariationSq :=
               specPopVariance ((customerGroup transactions cid).map (fun t => t.TX_AMOUNT)) } := by
  simp only [calculateCustomerStats]
  rw [if_neg (by simpa [List.isEmpty_iff] using h)]
  rfl

/-- A nonempty terminal group makes `calculateTerminalStats` return the
group's mean, size, and labeled-fraud fraction. -/
theorem calculateTerminalStats_eq_some (transactions : List Transaction) (tid : String)
    (h : terminalGroup transactions tid ≠ []) :
    calculateTerminalStats transactions tid =
      some { avgAmount := specMean ((terminalGroup transactions tid).map (fun t => t.TX_AMOUNT)),
             transactionCount := (terminalGroup transactions tid).length,
             fraudRate :=
               (((terminalGroup transactions tid).countP (fun t => t.TX_FRAUD == some 1)) : ℚ) /
                 (((terminalGroup transactions tid).length : ℕ) : ℚ) } := by
  simp only [calculateTerminalStats]
  rw [if_neg (by simpa [List.isEmpty_iff] using h)]
  rfl

/-- The customer stats map is populated exactly at the customer ids present
in the batch. -/
theorem calculateCustomerStats_isSome_iff (transactions : List Transaction) (cid : String) :
    (calculateCustomerStats transactions cid).isSome = true ↔
      cid ∈ transactions.map (fun t => t.CUSTOMER_ID) := by
  simp only [calculateCustomerStats]
  by_cases h : customerGroup transactions cid = []
  · rw [if_pos (by simpa [List.isEmpty_iff] using h)]
    simp only [Option.isSome_none, Bool.false_eq_true, false_iff]
    intro hmem
    rcases List.mem_map.mp hmem with ⟨t, ht, hcid⟩
    have hmf : t ∈ customerGroup transactions cid :=
      List.mem_filter.mpr ⟨ht, by simp [hcid]⟩
    rw [h] at hmf
    exact absurd hmf (List.not_mem_nil t)
  · rw [if_neg (by simpa [List.isEmpty_iff] using h)]
    simp only [Option.isSome_some, true_iff]
    obtain ⟨t, ht⟩ := List.exists_mem_of_ne_nil _ h
    have hf := List.mem_filter.mp ht
    exact List.mem_map.mpr ⟨t, hf.1, by simpa using hf.2⟩

/-- C8: customer aggregation yields one stats entry per distinct customer id
(populated exactly on present ids; `DataAnalyzer`'s list form has
duplicate-free ids, a permutation of the batch's distinct ids), the
transaction count is the number of that customer's rows, the mean is the
arithmetic mean of those rows' amounts, and the amount standard deviation
is the population standard deviation (divide by count). -/
theorem customer_stats_population_statistics (transactions : List Transaction) (cid : String) :
    ((calculateCustomerStats transactions cid).isSome = true ↔
      cid ∈ transactions.map (fun t => t.CUSTOMER_ID)) ∧
    (∀ s, calculateCustomerStats transactions cid = some s →
      s.transactionCount = transactions.countP (fun t => t.CUSTOMER_ID == cid) ∧
      s.avgAmount = specMean ((customerGroup transactions cid).map (fun t => t.TX_AMOUNT)) ∧
      s.amountVariation = specPopStd ((customerGroup transactions cid).map (fun t => t.TX_AMOUNT))) ∧
    ((analyzeCustomerStats transactions).map (fun e => e.customerId)).Nodup ∧
    ((analyzeCustomerStats transactions).map (fun e => e.customerId)).Perm
      ((transactions.map (fun t => t.CUSTOMER_ID)).dedup) ∧
    (∀ e ∈ analyzeCustomerStats transactions,
      e.totalTransactions = transactions.countP (fun t => t.CUSTOMER_ID == e.customerId) ∧
      e.averageAmount =
        specMean ((customerGroup transactions e.customerId).map (fun t => t.TX_AMOUNT)) ∧
      e.amountVariation =
        specPopStd ((customerGroup transactions e.customerId).map (fun t => t.TX_AMOUNT))) := by
  have hids :
      ((((transactions.map (fun t => t.CUSTOMER_ID)).dedup).map
          (analyzeCustomerEntry transactions)).map (fun e => e.customerId)) =
        (transactions.map (fun t => t.CUSTOMER_ID)).dedup := by
    rw [List.map_map]
    have hco : ((fun e : DACustomerStats => e.customerId) ∘ analyzeCustomerEntry transactions) =
        fun c => c := by
      funext c
      rfl
    rw [hco]
    simp
  have hperm : (analyzeCustomerStats transactions).Perm
      (((transactions.map (fun t => t.CUSTOMER_ID)).dedup).map
        (analyzeCustomerEntry transactions)) :=
    List.mergeSort_perm _ _
  have hpermIds : ((analyzeCustomerStats transactions).map (fun e => e.customerId)).Perm
      ((transactions.map (fun t => t.CUSTOMER_ID)).dedup) := by
    have := hperm.map (fun e : DACustomerStats => e.customerId)
    rwa [hids] at this
  refine ⟨calculateCustomerStats_isSome_iff transactions cid, ?_, ?_, hpermIds, ?_⟩
  · intro s hs
    have hne : customerGroup transactions cid ≠ [] := by
      intro hnil
      simp only [calculateCustomerStats] at hs
      rw [if_pos (by simpa [List.isEmpty_iff] using hnil)] at hs
      exact Option.noConfusion hs
    rw [calculateCustomerStats_eq_some transactions cid hne] at hs
    cases (Option.some.injEq _ _).mp hs.symm
    refine ⟨?_, rfl, rfl⟩
    simp [List.countP_eq_length_filter, customerGroup]
  · exact hpermIds.nodup_iff.mpr (List.nodup_dedup _)
  · intro e he
    have hmem : e ∈ ((transactions.map (fun t => t.CUSTOMER_ID)).dedup).map
        (analyzeCustomerEntry transactions) := hperm.mem_iff.mp he
    rcases List.mem_map.mp hmem with ⟨c, _, rfl⟩
    refine ⟨?_, rfl, rfl⟩
    simp [analyzeCustomerEntry, List.countP_eq_length_filter, customerGroup]

end FraudDetection

namespace FraudDetection

/-- C8 witness: the population-statistics characterization applied to the
concrete four-row single-customer batch (amounts all 10). -/
theorem customer_stats_population_statistics_witness :
    calculateCustomerStats gtBatch "c0" =
      some { avgAmount := 10, transactionCount := 4, amountVariationSq := 0 } ∧
    CustomerStat.transactionCount
        { avgAmount := 10, transactionCount := 4, amountVariationSq := 0 } =
      gtBatch.countP (fun t => t.CUSTOMER_ID == "c0") := by
  have hs : calculateCustomerStats gtBatch "c0" =
      some { avgAmount := 10, transactionCount := 4, amountVariationSq := 0 } := by
    norm_num [calculateCustomerStats, customerGroup, gtBatch, txMk]
  exact ⟨hs, ((customer_stats_population_statistics gtBatch "c0").2.1 _ hs).1⟩

/-- C10: both feature extraction and the rule-based classifier recompute the
stats maps from the input batch itself; hence every transaction of the
batch has a customer and a terminal entry with count ≥ 1 (the
unseen-entity defaults are never used), and feature positions 5 and 8
(0-based indices 4 and 7: the two transaction counts) are ≥ 1. -/
theorem batch_recomputed_stats_always_present (transactions : List Transaction)
    (t : Transaction) (ht : t ∈ transactions) :
    extractFeatures transactions =
      transactions.map (fun u =>
        extractFeatureVector (calculateCustomerStats transactions u.CUSTOMER_ID)
          (calculateTerminalStats transactions u.TERMINAL_ID) u) ∧
    detectFraudRuleBased transactions =
      transactions.map
        (ruleApply (calculateCustomerStats transactions) (calculateTerminalStats transactions)) ∧
    (∃ s, calculateCustomerStats transactions t.CUSTOMER_ID = some s ∧
      1 ≤ s.transactionCount) ∧
    (∃ s, calculateTerminalStats transactions t.TERMINAL_ID = some s ∧
      1 ≤ s.transactionCount) ∧
    1 ≤ (extractFeatureVector (calculateCustomerStats transactions t.CUSTOMER_ID)
        (calculateTerminalStats transactions t.TERMINAL_ID) t).getD 4 0 ∧
    1 ≤ (extractFeatureVector (calculateCustomerStats transactions t.CUSTOMER_ID)
        (calculateTerminalStats transactions t.TERMINAL_ID) t).getD 7 0 := by
  have hmc : t ∈ customerGroup transactions t.CUSTOMER_ID :=
    List.mem_filter.mpr ⟨ht, by simp⟩
  have hnec : customerGroup transactions t.CUSTOMER_ID ≠ [] := List.ne_nil_of_mem hmc
  have hmt : t ∈ terminalGroup transactions t.TERMINAL_ID :=
    List.mem_filter.mpr ⟨ht, by simp⟩
  have hnet : terminalGroup transactions t.TERMINAL_ID ≠ [] := List.ne_nil_of_mem hmt
  have hcs := calculateCustomerStats_eq_some transactions t.CUSTOMER_ID hnec
  have hts := calculateTerminalStats_eq_some transactions t.TERMINAL_ID hnet
  have hlc : 1 ≤ (customerGroup transactions t.CUSTOMER_ID).length :=
    List.length_pos.mpr hnec
  have hlt : 1 ≤ (terminalGroup transactions t.TERMINAL_ID).length :=
    List.length_pos.mpr hnet
  refine ⟨rfl, rfl, ⟨_, hcs, hlc⟩, ⟨_, hts, hlt⟩, ?_, ?_⟩
  · rw [hcs]
    simp only [extractFeatureVector, List.getD_cons_succ, List.getD_cons_zero]
    exact_mod_cast hlc
  · rw [hts]
    simp only [extractFeatureVector, List.getD_cons_succ, List.getD_cons_zero]
    exact_mod_cast hlt

/-- C10 witness: the count features of the first gtBatch row are ≥ 1. -/
theorem batch_recomputed_stats_always_present_witness :
    1 ≤ (extractFeatureVector
        (calculateCustomerStats gtBatch (txMk "g1" "c0" "T0" 10 (some 1)).CUSTOMER_ID)
        (calculateTerminalStats gtBatch (txMk "g1" "c0" "T0" 10 (some 1)).TERMINAL_ID)
        (txMk "g1" "c0" "T0" 10 (some 1))).getD 4 0 ∧
    1 ≤ (extractFeatureVector
        (calculateCustomerStats gtBatch (txMk "g1" "c0" "T0" 10 (some 1)).CUSTOMER_ID)
        (calculateTerminalStats gtBatch (txMk "g1" "c0" "T0" 10 (some 1)).TERMINAL_ID)
        (txMk "g1" "c0" "T0" 10 (some 1))).getD 7 0 := by
  have h := batch_recomputed_stats_always_present gtBatch
    (txMk "g1" "c0" "T0" 10 (some 1)) (by decide)
  exact ⟨h.2.2.2.2.1, h.2.2.2.2.2⟩

/-- C7 counterexample: for a transaction of amount 50 whose customer is
absent from the stats map, feature position 10 (0-based index 9, the
amount-anomaly feature) is |50 − 0| = 50, not the 0 default the spec's
feature list promises for an unseen customer. -/
theorem unseen_customer_amount_anomaly_is_amount :
    (extractFeatureVector none none txAnomalyProbe).getD 9 0 = 50 ∧ (50 : ℝ) ≠ 0 := by
  constructor
  · simp only [extractFeatureVector, txAnomalyProbe, txMk, List.getD_cons_succ,
      List.getD_cons_zero]
    norm_num
  · norm_num

/-- C7 amended: feature extraction returns one 14-position vector per
transaction in input order; an absent customer stats entry zeroes
positions 4–6 and makes position 10 equal |amount − 0| = |amount| (not 0),
and an absent terminal stats entry zeroes positions 7–9. -/
theorem feature_vector_shape_and_defaults (transactions : List Transaction)
    (customerStat : Option CustomerStat) (terminalStat : Option TerminalStat)
    (t : Transaction) :
    extractFeatures transactions =
      transactions.map (fun u =>
        extractFeatureVector (calculateCustomerStats transactions u.CUSTOMER_ID)
          (calculateTerminalStats transactions u.TERMINAL_ID) u) ∧
    (extractFeatures transactions).length = transactions.length ∧
    (extractFeatureVector customerStat terminalStat t).length = 14 ∧
    (customerStat = none →
      (extractFeatureVector customerStat terminalStat t).getD 3 0 = 0 ∧
      (extractFeatureVector customerStat terminalStat t).getD 4 0 = 0 ∧
      (extractFeatureVector customerStat terminalStat t).getD 5 0 = 0 ∧
      (extractFeatureVector customerStat terminalStat t).getD 9 0 = |(t.TX_AMOUNT : ℝ)|) ∧
    (terminalStat = none →
      (extractFeatureVector customerStat terminalStat t).getD 6 0 = 0 ∧
      (extractFeatureVector customerStat terminalStat t).getD 7 0 = 0 ∧
      (extractFeatureVector customerStat terminalStat t).getD 8 0 = 0) := by
  refine ⟨rfl, by simp [extractFeatures], by simp [extractFeatureVector], ?_, ?_⟩
  · rintro rfl
    refine ⟨?_, ?_, ?_, ?_⟩ <;>
      simp [extractFeatureVector, List.getD_cons_succ, List.getD_cons_zero]
  · rintro rfl
    refine ⟨?_, ?_, ?_⟩ <;>
      simp [extractFeatureVector, List.getD_cons_succ, List.getD_cons_zero]

/-- C7 witness: the shape-and-defaults theorem applied to the concrete
probe transaction with both stats entries absent. -/
theorem feature_vector_shape_and_defaults_witness :
    (extractFeatureVector none none txAnomalyProbe).getD 4 0 = 0 ∧
    (extractFeatureVector none none txAnomalyProbe).getD 7 0 = 0 ∧
    (extractFeatureVector none none txAnomalyProbe).length = 14 := by
  have h := feature_vector_shape_and_defaults [] none none txAnomalyProbe
  exact ⟨(h.2.2.2.1 rfl).2.1, (h.2.2.2.2 rfl).2.1, h.2.2.1⟩

end FraudDetection

namespace FraudDetection

/-- C4 counterexample: invoking the normalization transform with no fitted
scaler does not raise; it silently returns the raw, un-normalized features
unchanged. -/
theorem transform_without_scaler_returns_raw :
    applyNormalization none [[(1 : ℝ), 2]] = [[(1 : ℝ), 2]] := rfl

/-- C4 amended: `predict` before any fit fails loudly with
`'Model not trained yet'` (whenever the model or the scaler is absent),
but `applyNormalization` itself, called with no fitted scaler, returns its
input unchanged instead of raising — the no-silent-fallback guarantee holds
only at the `predict` entry point. -/
theorem predict_untrained_fails_loudly (st : DetectorState)
    (transactions : List Transaction) (h : st.model = none ∨ st.scaler = none) :
    predict st transactions = Except.error "Model not trained yet" ∧
    ∀ m : List (List ℝ), applyNormalization none m = m := by
  refine ⟨?_, fun m => rfl⟩
  obtain ⟨mo, sc⟩ := st
  rcases h with h | h
  · simp only at h
    subst h
    cases sc <;> rfl
  · simp only at h
    subst h
    cases mo <;> rfl

/-- C4 witness: the untrained-state error on the fully untrained state. -/
theorem predict_untrained_fails_loudly_witness :
    predict { model := none, scaler := none } [] = Except.error "Model not trained yet" :=
  (predict_untrained_fails_loudly { model := none, scaler := none } [] (Or.inl rfl)).1

end FraudDetection

namespace FraudDetection

theorem sum_map_sub_const (l : List ℝ) (c : ℝ) :
    (l.map (fun v => v - c)).sum = l.sum - (l.length : ℝ) * c := by
  induction l with
  | nil => simp
  | cons a l ih =>
    simp only [List.map_cons, List.sum_cons, List.length_cons, ih]
    push_cast
    ring

theorem sum_map_div_const (l : List ℝ) (c : ℝ) :
    (l.map (fun v => v / c)).sum = l.sum / c := by
  induction l with
  | nil => simp
  | cons a l ih =>
    simp only [List.map_cons, List.sum_cons, ih]
    ring

theorem sum_sq_eq_zero (l : List ℝ) (c : ℝ)
    (h : (l.map (fun v => (v - c) ^ 2)).sum = 0) : ∀ v ∈ l, v = c := by
  induction l with
  | nil => simp
  | cons a l ih =>
    simp only [List.map_cons, List.sum_cons] at h
    have ha : (0 : ℝ) ≤ (a - c) ^ 2 := sq_nonneg _
    have hrest : (0 : ℝ) ≤ (l.map (fun v => (v - c) ^ 2)).sum := by
      apply List.sum_nonneg
      intro x hx
      rcases List.mem_map.mp hx with ⟨v, _, rfl⟩
      exact sq_nonneg _
    have hsplit := (add_eq_zero_iff_of_nonneg ha hrest).mp h
    intro v hv
    rcases List.mem_cons.mp hv with rfl | hv
    · have := (pow_eq_zero_iff two_ne_zero).mp hsplit.1
      linarith [sub_eq_zero.mp this]
    · exact ih hsplit.2 v hv

theorem mapIdx_getD {α β : Type} (l : List α) (f : ℕ → α → β) (i : ℕ) (d : β) (dv : α)
    (hi : i < l.length) :
    (l.mapIdx f).getD i d = f i (l.getD i dv) := by
  induction l generalizing f i with
  | nil => simp at hi
  | cons a l ih =>
    rw [List.mapIdx_cons]
    cases i with
    | zero => simp
    | succ n =>
      simp only [List.getD_cons_succ]
      exact ih (fun j => f (j + 1)) n (by simpa using hi)

end FraudDetection

namespace FraudDetection

theorem jsCol_length (m : List (List ℝ)) (i : ℕ) : (jsCol m i).length = m.length := by
  simp [jsCol]

theorem jsCol_scalerTransform (sc : Scaler) (m : List (List ℝ)) (i : ℕ)
    (h : ∀ row ∈ m, i < row.length) :
    jsCol (scalerTransform sc m) i =
      (jsCol m i).map (fun v => (v - sc.mean.getD i 0) / sc.std.getD i 1) := by
  simp only [jsCol, scalerTransform, List.map_map]
  apply List.map_congr_left
  intro row hrow
  simp only [Function.comp_apply]
  exact mapIdx_getD row _ i 0 0 (h row hrow)

theorem range_map_getD {β : Type} (k i : ℕ) (f : ℕ → β) (d : β) (hi : i < k) :
    ((List.range k).map f).getD i d = f i := by
  rw [List.getD_eq_getElem _ _ (by simpa using hi)]
  simp

theorem fitScaler_mean_getD (m : List (List ℝ)) (i : ℕ)
    (hi : i < (m.headD []).length) :
    (fitScaler m).mean.getD i 0 = colMean m i := by
  simp only [fitScaler]
  exact range_map_getD _ _ _ _ hi

theorem fitScaler_std_getD (m : List (List ℝ)) (i : ℕ)
    (hi : i < (m.headD []).length) :
    (fitScaler m).std.getD i 1 = colStd m i := by
  simp only [fitScaler]
  exact range_map_getD _ _ _ _ hi

theorem colVariance_nonneg (m : List (List ℝ)) (i : ℕ) : 0 ≤ colVariance m i := by
  apply div_nonneg
  · apply List.sum_nonneg
    intro x hx
    rcases List.mem_map.mp hx with ⟨v, _, rfl⟩
    exact sq_nonneg _
  · exact Nat.cast_nonneg _

theorem colStd_eq (m : List (List ℝ)) (i : ℕ) :
    colStd m i = if colVariance m i = 0 then 1 else Real.sqrt (colVariance m i) := by
  unfold colStd
  by_cases hv : colVariance m i = 0
  · rw [if_pos hv, if_pos]
    rw [hv, Real.sqrt_zero]
  · rw [if_neg hv, if_neg]
    intro hs
    have hle : colVariance m i ≤ 0 := Real.sqrt_eq_zero'.mp hs
    exact hv (le_antisymm hle (colVariance_nonneg m i))

theorem colStd_pos (m : List (List ℝ)) (i : ℕ) : 0 < colStd m i := by
  rw [colStd_eq]
  by_cases hv : colVariance m i = 0
  · rw [if_pos hv]
    exact one_pos
  · rw [if_neg hv]
    exact Real.sqrt_pos.mpr (lt_of_le_of_ne (colVariance_nonneg m i) (Ne.symm hv))

theorem colVariance_eq_popVarR (m : List (List ℝ)) (i : ℕ) :
    colVariance m i = popVarR (jsCol m i) := by
  simp only [colVariance, popVarR, colMean, jsCol_length]

/-- C6: each per-column standard deviation fitted by the scaler equals the
population standard deviation of that column, except that a zero standard
deviation (zero variance) is replaced by 1; the stored value is therefore
always strictly positive, so the (x − mean)/std transform never divides by
zero. -/
theorem fitted_std_is_floored_population_std (m : List (List ℝ)) (i : ℕ)
    (hi : i < (m.headD []).length) :
    0 ≤ popVarR (jsCol m i) ∧
    colVariance m i = popVarR (jsCol m i) ∧
    (fitScaler m).std.getD i 1 =
      (if popVarR (jsCol m i) = 0 then 1 else Real.sqrt (popVarR (jsCol m i))) ∧
    0 < (fitScaler m).std.getD i 1 := by
  have hpv := colVariance_eq_popVarR m i
  refine ⟨hpv ▸ colVariance_nonneg m i, hpv, ?_, ?_⟩
  · rw [fitScaler_std_getD m i hi, colStd_eq, hpv]
  · rw [fitScaler_std_getD m i hi]
    exact colStd_pos m i

end FraudDetection

namespace FraudDetection

theorem normalizeFeatures_of_ne_nil (prev : Option Scaler) (m : List (List ℝ))
    (h : m ≠ []) :
    normalizeFeatures prev m = (some (fitScaler m), scalerTransform (fitScaler m) m) := by
  simp [normalizeFeatures, List.isEmpty_iff, h]

theorem jsCol_transform_eq (m : List (List ℝ)) (i : ℕ) (hrect : Rect m)
    (hi : i < (m.headD []).length) :
    jsCol (scalerTransform (fitScaler m) m) i =
      (jsCol m i).map (fun v => (v - colMean m i) / colStd m i) := by
  rw [jsCol_scalerTransform _ _ _ (fun row hrow => by rw [hrect row hrow]; exact hi)]
  simp only [fitScaler_mean_getD m i hi, fitScaler_std_getD m i hi]

theorem scalerTransform_length (sc : Scaler) (m : List (List ℝ)) :
    (scalerTransform sc m).length = m.length := by
  simp [scalerTransform]

theorem colMean_transform_eq_zero (m : List (List ℝ)) (i : ℕ) (hne : m ≠ [])
    (hrect : Rect m) (hi : i < (m.headD []).length) :
    colMean (scalerTransform (fitScaler m) m) i = 0 := by
  have hn : ((m.length : ℕ) : ℝ) ≠ 0 := by
    have h0 : 0 < m.length := List.length_pos.mpr hne
    exact_mod_cast h0.ne'
  have hx : (jsCol m i).sum = ((m.length : ℕ) : ℝ) * colMean m i := by
    rw [colMean]
    field_simp
  rw [colMean, jsCol_transform_eq m i hrect hi, scalerTransform_length]
  have hcomp : ((jsCol m i).map (fun v => (v - colMean m i) / colStd m i)) =
      (((jsCol m i).map (fun v => v - colMean m i)).map (fun w => w / colStd m i)) := by
    rw [List.map_map]
    rfl
  rw [hcomp, sum_map_div_const, sum_map_sub_const, jsCol_length, hx]
  simp

theorem colVariance_transform (m : List (List ℝ)) (i : ℕ) (hne : m ≠ [])
    (hrect : Rect m) (hi : i < (m.headD []).length) :
    colVariance (scalerTransform (fitScaler m) m) i =
      colVariance m i / (colStd m i) ^ 2 := by
  rw [colVariance, colMean_transform_eq_zero m i hne hrect hi,
    jsCol_transform_eq m i hrect hi, scalerTransform_length, List.map_map]
  have hfun : ((fun v => (v - 0) ^ 2) ∘ fun v => (v - colMean m i) / colStd m i) =
      fun v => ((v - colMean m i) ^ 2) / (colStd m i) ^ 2 := by
    funext v
    rw [Function.comp_apply, sub_zero, div_pow]
  rw [hfun]
  have hcomp : ((jsCol m i).map (fun v => ((v - colMean m i) ^ 2) / (colStd m i) ^ 2)) =
      (((jsCol m i).map (fun v => (v - colMean m i) ^ 2)).map
        (fun w => w / (colStd m i) ^ 2)) := by
    rw [List.map_map]
    rfl
  rw [hcomp, sum_map_div_const, colVariance]
  ring

/-- C5: fitting the scaler on a non-empty rectangular feature matrix and
transforming that same matrix yields, in every column of nonzero variance,
exactly mean 0 and population standard deviation 1 (so certainly within
floating-point tolerance), and in every column of zero variance, all
values exactly 0. -/
theorem fit_transform_standardizes (m : List (List ℝ)) (hne : m ≠ []) (hrect : Rect m)
    (i : ℕ) (hi : i < (m.headD []).length) :
    colMean ((normalizeFeatures none m).2) i = 0 ∧
    (colVariance m i ≠ 0 →
      colVariance ((normalizeFeatures none m).2) i = 1 ∧
      Real.sqrt (colVariance ((normalizeFeatures none m).2) i) = 1) ∧
    (colVariance m i = 0 →
      ∀ v ∈ jsCol ((normalizeFeatures none m).2) i, v = 0) := by
  have hnf : (normalizeFeatures none m).2 = scalerTransform (fitScaler m) m := by
    rw [normalizeFeatures_of_ne_nil none m hne]
  rw [hnf]
  refine ⟨colMean_transform_eq_zero m i hne hrect hi, ?_, ?_⟩
  · intro hvar
    have hstd : colStd m i = Real.sqrt (colVariance m i) := by
      rw [colStd_eq, if_neg hvar]
    have hsq : (colStd m i) ^ 2 = colVariance m i := by
      rw [hstd]
      exact Real.sq_sqrt (colVariance_nonneg m i)
    have h1 : colVariance (scalerTransform (fitScaler m) m) i = 1 := by
      rw [colVariance_transform m i hne hrect hi, hsq, div_self hvar]
    exact ⟨h1, by rw [h1, Real.sqrt_one]⟩
  · intro hvar
    have hn : ((m.length : ℕ) : ℝ) ≠ 0 := by
      have h0 : 0 < m.length := List.length_pos.mpr hne
      exact_mod_cast h0.ne'
    have hsum : ((jsCol m i).map (fun v => (v - colMean m i) ^ 2)).sum = 0 := by
      rw [colVariance] at hvar
      exact (div_eq_zero_iff.mp hvar).resolve_right hn
    have hall := sum_sq_eq_zero _ _ hsum
    intro v hv
    rw [jsCol_transform_eq m i hrect hi] at hv
    rcases List.mem_map.mp hv with ⟨w, hw, rfl⟩
    rw [hall w hw, sub_self, zero_div]

/-- C5 witness: the standardization theorem at the concrete matrix
[[1,5],[3,5]] whose first column has variance 1: the transformed first
column has mean 0 and variance 1. -/
theorem fit_transform_standardizes_witness :
    colMean ((normalizeFeatures none [[(1 : ℝ), 5], [3, 5]]).2) 0 = 0 ∧
    colVariance ((normalizeFeatures none [[(1 : ℝ), 5], [3, 5]]).2) 0 = 1 := by
  have h := fit_transform_standardizes [[(1 : ℝ), 5], [3, 5]] (by simp)
    (by intro row hrow; fin_cases hrow <;> rfl) 0 (by norm_num)
  have hvar : colVariance [[(1 : ℝ), 5], [3, 5]] 0 = 1 := by
    norm_num [colVariance, colMean, jsCol]
  exact ⟨h.1, (h.2.1 (by rw [hvar]; norm_num)).1⟩

/-- C6 witness: the floored-standard-deviation theorem at the concrete
matrix [[1,5],[3,5]] and its zero-variance second column. -/
theorem fitted_std_is_floored_population_std_witness :
    0 ≤ popVarR (jsCol [[(1 : ℝ), 5], [3, 5]] 1) ∧
    0 < (fitScaler [[(1 : ℝ), 5], [3, 5]]).std.getD 1 1 := by
  have h := fitted_std_is_floored_population_std [[(1 : ℝ), 5], [3, 5]] 1 (by norm_num)
  exact ⟨h.1, h.2.2.2⟩

end FraudDetection
